import Mathlib

/-!
Verification of the LC-3 emulator sources against their specification.

The repository contains several generations of the same emulator:

* the current generation: cpu.rs (executor over decoded instructions),
  instruction.rs (decoder), state/memory.rs and state/registers.rs
  (memory with memory-mapped I/O, register file), file.rs and
  file_loader.rs (image loaders), sign_extend.rs, trap_vector.rs;
* an intermediate generation: process.rs (executor over raw words),
  state.rs (state with a raw word array and read_memory), debugger.rs;
* the oldest generation: lib.rs (monolithic executor).

Every definition below is a shallow embedding of one of those source files.
Words are natural numbers; 16-bit wrapping arithmetic is written with an
explicit modulus 65536.  Failures of the Rust code (out-of-bounds array
accesses, unimplemented arms, unwrap on empty input) are Option none.
Character input is a list of pending stdin bytes; character output is the
list of bytes printed.
-/

namespace LC3

/-- Sign extension of a value whose meaningful bits occupy the low
bitCount positions (sign_extend.rs, SignExtend for u16; identical code in
utilities.rs and lib.rs).  The Rust shift 0xFFFF << bit_count is u16
arithmetic, hence the modulus 65536.  Faithful for 1 <= bitCount <= 15,
the widths that are representable in u16 without overflow; the program
only uses widths 5, 6, 9 and 11. -/
def signExtend (value : Nat) (bitCount : Nat) : Nat :=
  if (value >>> (bitCount - 1)) &&& 1 = 1 then
    value ||| ((0xFFFF <<< bitCount) % 65536)
  else value

/-- Interpretation of a value as a width-bit two's-complement integer. -/
def toInt (width v : Nat) : Int :=
  if v < 2 ^ (width - 1) then (v : Int) else (v : Int) - 2 ^ width

/-- Condition codes (state.rs, enum Condition). -/
inductive Condition where
  | P
  | Z
  | N
  deriving DecidableEq, BEq

/-- Register file: eight word slots (state/registers.rs, struct Registers). -/
structure Registers where
  regs : Fin 8 → Nat

/-- Fresh register file, all zeros (state/registers.rs, Registers::new). -/
def Registers.new : Registers := ⟨fun _ => 0⟩

/-- Read one register (state/registers.rs, Registers::read). -/
def Registers.read (r : Registers) (i : Fin 8) : Nat := r.regs i

/-- Write one register (state/registers.rs, Registers::write). -/
def Registers.write (r : Registers) (i : Fin 8) (v : Nat) : Registers :=
  ⟨fun j => if j = i then v else r.regs j⟩

/-- Keyboard status register address (state/memory.rs, const KBSR). -/
def KBSR : Nat := 0xfe00

/-- Keyboard data register address (state/memory.rs, const KBDR). -/
def KBDR : Nat := 0xfe02

/-- Display status register address (state/memory.rs, const DSR). -/
def DSR : Nat := 0xfe04

/-- Display data register address (state/memory.rs, const DDR). -/
def DDR : Nat := 0xfe06

/-- Machine control register address (state/memory.rs, const MCR). -/
def MCR : Nat := 0xfffe

/-- Memory of the current generation (state/memory.rs, struct Memory).
The Rust backing array is memory of size u16::max_value() as usize, which
is 65535 elements, indices 0 to 65534: an access at index 65535 (address
0xFFFF) is out of bounds and fails. -/
structure Memory where
  mem : Fin 65535 → Nat

/-- Store into the backing array at an in-bounds index. -/
def Memory.store (m : Memory) (a : Fin 65535) (v : Nat) : Memory :=
  ⟨fun j => if j = a then v else m.mem j⟩

/-- Indexing the backing array, self.memory adress as usize: fails when the
address is out of bounds, as the Rust index does. -/
def Memory.get (m : Memory) (a : Nat) : Option Nat :=
  if h : a < 65535 then some (m.mem ⟨a, h⟩) else none

/-- Fresh memory: all zeros except DSR and MCR, which Memory::new sets to
1 <<< 15 (state/memory.rs, Memory::new). -/
def Memory.new : Memory :=
  ⟨fun j => if (j : Nat) = DSR then 32768 else if (j : Nat) = MCR then 32768 else 0⟩

/-- Whether a stdin byte is ready: check_key in state/memory.rs is a
zero-timeout readiness poll of stdin, modelled as the pending input list
being nonempty. -/
def check_key (stdin : List Nat) : Bool := !stdin.isEmpty

/-- Memory read with memory-mapped I/O (state/memory.rs, Memory::read).
KBSR polls stdin readiness and stores the result; KBDR consumes one stdin
byte iff the stored KBSR has bit 15 set; DSR, DDR and MCR reads are
unimplemented in the source and fail; every other address is a plain array
index (failing out of bounds).  The result is the mutated memory, the
remaining stdin and the value read. -/
def Memory.read (m : Memory) (stdin : List Nat) (address : Nat) :
    Option (Memory × List Nat × Nat) :=
  if address = KBSR then
    let value := if check_key stdin then 32768 else 0
    some (m.store ⟨KBSR, by decide⟩ value, stdin, value)
  else if address = KBDR then
    let kbsr := m.mem ⟨KBSR, by decide⟩
    if (kbsr >>> 15) &&& 0x1 = 1 then
      match stdin with
      | [] => none
      | c :: rest => some (m, rest, c)
    else some (m, stdin, 0)
  else if address = DSR then none
  else if address = DDR then none
  else if address = MCR then none
  else (m.get address).map (fun v => (m, stdin, v))

/-- Memory write (state/memory.rs, Memory::write): a plain store into the
backing array, failing out of bounds; no address is treated specially. -/
def Memory.write (m : Memory) (address : Nat) (value : Nat) : Option Memory :=
  if h : address < 65535 then some (m.store ⟨address, h⟩ value) else none

/-- Trap vectors (trap_vector.rs, enum TrapVector). -/
inductive TrapVector where
  | GETC
  | OUT
  | PUTS
  | IN
  | PUTSP
  | HALT
  deriving DecidableEq, BEq

/-- Recognition of the low eight bits of a TRAP word (trap_vector.rs,
TrapVector::from_instruction); vectors outside 0x20..0x25 yield the error
result. -/
def TrapVector.from_instruction (instruction : Nat) : Option TrapVector :=
  let value := instruction &&& 0xFF
  if value = 0x20 then some .GETC
  else if value = 0x21 then some .OUT
  else if value = 0x22 then some .PUTS
  else if value = 0x23 then some .IN
  else if value = 0x24 then some .PUTSP
  else if value = 0x25 then some .HALT
  else none

/-- Modelled from the spec: TrapVector::decode, called by
Instruction::decode in instruction.rs, is not under src (only its caller
is; trap_vector.rs holds the older from_instruction).  Per the spec only
vectors 0x20..0x25 are recognized and an unrecognized trap is fatal, so
decode fails (none) outside that range; the field extraction, the low
eight bits of the word, follows TrapVector::from_instruction. -/
def TrapVector.decode (instruction : Nat) : Option TrapVector :=
  TrapVector.from_instruction instruction

/-- Conversion of a register operand field to a register index
(instruction.rs, Register::from): indices 0..7 succeed, anything else is
the bad-register failure. -/
def Register.fromNat (n : Nat) : Option (Fin 8) :=
  if h : n < 8 then some ⟨n, h⟩ else none

/-- Branch condition flags (instruction.rs, struct Condition with fields
p, z, n). -/
structure BrCondition where
  p : Bool
  z : Bool
  n : Bool
  deriving DecidableEq, BEq

/-- Decoded instructions (instruction.rs, enum Instruction).  Register
operands are indices below 8 by construction. -/
inductive Instruction where
  | BR (cond : BrCondition) (pcOffset : Nat)
  | ADD (r0 r1 r2 : Fin 8)
  | ADDIMM (r0 r1 : Fin 8) (immediateValue : Nat)
  | LD (r0 : Fin 8) (pcOffset : Nat)
  | ST (r0 : Fin 8) (pcOffset : Nat)
  | JSR (pcOffset : Nat)
  | JSRR (r0 : Fin 8)
  | AND (r0 r1 r2 : Fin 8)
  | ANDIMM (immediateValue : Nat) (r0 r1 : Fin 8)
  | LDR (r0 r1 : Fin 8) (offset : Nat)
  | STR (sr baseR : Fin 8) (offset : Nat)
  | UNUSED
  | NOT (r0 r1 : Fin 8)
  | LDI (dr : Fin 8) (pcOffset : Nat)
  | STI (r0 : Fin 8) (pcOffset : Nat)
  | JMP (r0 : Fin 8)
  | RESERVED
  | LEA (r0 : Fin 8) (pcOffset : Nat)
  | TRAP (trapVector : TrapVector)

/-- Instruction decoding (instruction.rs, Instruction::decode).  The top
four bits select the opcode; operand fields are masked out of the word.
Failure arises only from Register.fromNat (the bad-register failure, in
fact unreachable because every operand is masked with 7) and from
TrapVector.decode (an unrecognized trap vector). -/
def Instruction.decode (instruction : Nat) : Option Instruction :=
  match instruction >>> 12 with
  | 0x00 =>
    let n := ((instruction >>> 11) &&& 0x1) = 1
    let z := ((instruction >>> 10) &&& 0x1) = 1
    let p := ((instruction >>> 9) &&& 0x1) = 1
    let pcOffset := instruction &&& 0x1ff
    some (.BR { n := n, z := z, p := p } pcOffset)
  | 0x01 =>
    (Register.fromNat ((instruction >>> 9) &&& 0x7)).bind fun r0 =>
    (Register.fromNat ((instruction >>> 6) &&& 0x7)).bind fun r1 =>
    (Register.fromNat (instruction &&& 0x7)).bind fun r2 =>
    let immediateFlag := ((instruction >>> 5) &&& 0x1) = 0x1
    let immediateValue := signExtend (instruction &&& 0x1f) 5
    if immediateFlag then some (.ADDIMM r0 r1 immediateValue)
    else some (.ADD r0 r1 r2)
  | 0x02 =>
    (Register.fromNat ((instruction >>> 9) &&& 0x7)).bind fun r0 =>
    some (.LD r0 (instruction &&& 0x1ff))
  | 0x03 =>
    (Register.fromNat ((instruction >>> 9) &&& 0x7)).bind fun r0 =>
    some (.ST r0 (instruction &&& 0x1ff))
  | 0x04 =>
    let usePcOffset := ((instruction >>> 11) &&& 1) = 1
    (Register.fromNat ((instruction >>> 6) &&& 7)).bind fun r0 =>
    let pcOffset := instruction &&& 0x7ff
    if usePcOffset then some (.JSR pcOffset) else some (.JSRR r0)
  | 0x05 =>
    let immediateFlag := ((instruction >>> 5) &&& 1) = 1
    let immediateValue := signExtend (instruction &&& 0x1f) 5
    (Register.fromNat ((instruction >>> 9) &&& 0x7)).bind fun r0 =>
    (Register.fromNat ((instruction >>> 6) &&& 0x7)).bind fun r1 =>
    (Register.fromNat (instruction &&& 0x7)).bind fun r2 =>
    if immediateFlag then some (.ANDIMM immediateValue r0 r1)
    else some (.AND r0 r1 r2)
  | 0x06 =>
    (Register.fromNat ((instruction >>> 9) &&& 0x7)).bind fun r0 =>
    (Register.fromNat ((instruction >>> 6) &&& 0x7)).bind fun r1 =>
    some (.LDR r0 r1 (instruction &&& 0x3f))
  | 0x07 =>
    (Register.fromNat ((instruction >>> 9) &&& 0x7)).bind fun sr =>
    (Register.fromNat ((instruction >>> 6) &&& 0x7)).bind fun baseR =>
    some (.STR sr baseR (instruction &&& 0x3f))
  | 0x08 => some .UNUSED
  | 0x09 =>
    (Register.fromNat ((instruction >>> 9) &&& 0x7)).bind fun r0 =>
    (Register.fromNat ((instruction >>> 6) &&& 0x7)).bind fun r1 =>
    some (.NOT r0 r1)
  | 0x0a =>
    (Register.fromNat ((instruction >>> 9) &&& 0x7)).bind fun dr =>
    some (.LDI dr (signExtend (instruction &&& 0x1ff) 9))
  | 0x0b =>
    (Register.fromNat ((instruction >>> 9) &&& 0x7)).bind fun r0 =>
    some (.STI r0 (instruction &&& 0x1ff))
  | 0x0c =>
    (Register.fromNat ((instruction >>> 6) &&& 0x7)).bind fun r0 =>
    some (.JMP r0)
  | 0x0d => some .RESERVED
  | 0x0e =>
    (Register.fromNat ((instruction >>> 9) &&& 0x7)).bind fun r0 =>
    some (.LEA r0 (instruction &&& 0x1ff))
  | 0x0f => (TrapVector.decode instruction).map (fun tv => .TRAP tv)
  | _ => none

/-- Machine state of the current generation.  Modelled from the spec: the
state struct used by cpu.rs is not under src (only its components and its
users are); per spec section 3 it aggregates memory, registers, program
counter, condition code and the running flag.  Field behavior follows the
state.rs State of the intermediate generation. -/
structure State where
  memory : Memory
  registers : Registers
  pc : Nat
  condition : Condition
  running : Bool

/-- Condition-code update from the value just written to a register
(state.rs, State::update_flags): zero gives Z, a set bit 15 gives N,
anything else gives P. -/
def State.update_flags (s : State) (r : Fin 8) : State :=
  if s.registers.read r = 0 then { s with condition := Condition.Z }
  else if (s.registers.read r) >>> 15 = 1 then { s with condition := Condition.N }
  else { s with condition := Condition.P }

/-- The PUTS trap loop of cpu.rs: starting at address i, read memory twice
per iteration (once for the loop test and once for the printed byte, as
the source does) and print low bytes until a zero word.  The fuel bounds
the traversal; the source loop always stops within 65536 steps because the
addresses increase and the read at address 0xFFFF fails, so the fuel is
never exhausted when the call starts with fuel 65536. -/
def putsLoop (m : Memory) (stdin : List Nat) (i : Nat) :
    Nat → Option (Memory × List Nat × List Nat)
  | 0 => none
  | fuel + 1 =>
    match m.read stdin i with
    | none => none
    | some (m1, in1, v) =>
      if v ≠ 0 then
        match m1.read in1 i with
        | none => none
        | some (m2, in2, w) =>
          (putsLoop m2 in2 (i + 1) fuel).map
            (fun r => (r.1, r.2.1, (w % 256) :: r.2.2))
      else some (m1, in1, [])

/-- The executor of the current generation (cpu.rs, execute): increments
the PC (wrapping), then applies the operand semantics of the decoded
instruction.  The extra argument is the pending stdin bytes; the result
carries the next state, the remaining stdin and the bytes printed.  The
UNUSED and RESERVED arms and the unimplemented IN and PUTSP traps fail;
GETC fails when no input byte can be read. -/
def execute (state : State) (instruction : Instruction) (stdin : List Nat) :
    Option (State × List Nat × List Nat) :=
  let s : State := { state with pc := (state.pc + 1) % 65536 }
  match instruction with
  | .BR condition pcOffset =>
    if (condition.n && s.condition == Condition.N)
        || (condition.z && s.condition == Condition.Z)
        || (condition.p && s.condition == Condition.P) then
      some ({ s with pc := (s.pc + signExtend pcOffset 9) % 65536 }, stdin, [])
    else
      some (s, stdin, [])
  | .ADD r0 r1 r2 =>
    let value := (s.registers.read r1 + s.registers.read r2) % 65536
    let s := { s with registers := s.registers.write r0 value }
    some (s.update_flags r0, stdin, [])
  | .ADDIMM r0 r1 immediateValue =>
    let value := (s.registers.read r1 + signExtend immediateValue 5) % 65536
    let s := { s with registers := s.registers.write r0 value }
    some (s.update_flags r0, stdin, [])
  | .LD r0 pcOffset =>
    let address := (s.pc + signExtend pcOffset 9) % 65536
    (s.memory.read stdin address).map fun r =>
      let s := { s with memory := r.1, registers := s.registers.write r0 r.2.2 }
      (s.update_flags r0, r.2.1, [])
  | .ST r0 pcOffset =>
    let address := (s.pc + signExtend pcOffset 9) % 65536
    (s.memory.write address (s.registers.read r0)).map fun m =>
      ({ s with memory := m }, stdin, [])
  | .JSR pcOffset =>
    let temp := s.pc
    let s := { s with pc := (s.pc + signExtend pcOffset 11) % 65536 }
    some ({ s with registers := s.registers.write 7 temp }, stdin, [])
  | .JSRR r0 =>
    let temp := s.pc
    let s := { s with pc := s.registers.read r0 }
    some ({ s with registers := s.registers.write 7 temp }, stdin, [])
  | .AND r0 r1 r2 =>
    let value := s.registers.read r1 &&& s.registers.read r2
    some ({ s with registers := s.registers.write r0 value }, stdin, [])
  | .ANDIMM immediateValue r0 r1 =>
    let value := s.registers.read r1 &&& signExtend immediateValue 5
    some ({ s with registers := s.registers.write r0 value }, stdin, [])
  | .LDR r0 r1 offset =>
    let address := (s.registers.read r1 + signExtend offset 6) % 65536
    (s.memory.read stdin address).map fun r =>
      let s := { s with memory := r.1, registers := s.registers.write r0 r.2.2 }
      (s.update_flags r0, r.2.1, [])
  | .STR sr baseR offset =>
    let address := (s.registers.read baseR + signExtend offset 6) % 65536
    let value := s.registers.read sr
    (s.memory.write address value).map fun m =>
      ({ s with memory := m }, stdin, [])
  | .UNUSED => none
  | .NOT r0 r1 =>
    -- bitwise complement of a 16-bit word
    let value := 65535 - s.registers.read r1
    let s := { s with registers := s.registers.write r0 value }
    some (s.update_flags r0, stdin, [])
  | .LDI dr pcOffset =>
    (s.memory.read stdin ((s.pc + signExtend pcOffset 9) % 65536)).bind fun r1 =>
    (r1.1.read r1.2.1 r1.2.2).map fun r2 =>
      let s := { s with memory := r2.1, registers := s.registers.write dr r2.2.2 }
      (s.update_flags dr, r2.2.1, [])
  | .STI r0 pcOffset =>
    let address := (s.pc + signExtend pcOffset 9) % 65536
    (s.memory.read stdin address).bind fun r =>
    (r.1.write r.2.2 (s.registers.read r0)).map fun m =>
      ({ s with memory := m }, r.2.1, [])
  | .JMP r0 =>
    some ({ s with pc := s.registers.read r0 }, stdin, [])
  | .RESERVED => none
  | .LEA r0 pcOffset =>
    let value := (s.pc + signExtend pcOffset 9) % 65536
    some ({ s with registers := s.registers.write r0 value }, stdin, [])
  | .TRAP trapVector =>
    match trapVector with
    | .GETC =>
      match stdin with
      | [] => none
      | c :: rest =>
        some ({ s with registers := s.registers.write 0 c }, rest, [])
    | .OUT =>
      some (s, stdin, [s.registers.read 0 % 256])
    | .PUTS =>
      (putsLoop s.memory stdin (s.registers.read 0) 65536).map fun r =>
        ({ s with memory := r.1 }, r.2.1, r.2.2)
    | .IN => none
    | .PUTSP => none
    | .HALT =>
      some ({ s with running := false }, stdin, [])

/-- Machine state of the intermediate generation (state.rs, struct State):
a raw word array of std::u16::MAX = 65535 elements, eight registers, the
program counter, the condition code, the running flag, the continue flag
and the optional breakpoint of the debugger. -/
structure OpState where
  memory : Fin 65535 → Nat
  registers : Fin 8 → Nat
  pc : Nat
  condition : Condition
  running : Bool
  debug_continue : Bool
  break_address : Option Nat

/-- Fresh intermediate-generation state (state.rs, State::new): memory and
registers all zero, PC 0x3000, condition P, running. -/
def OpState.new : OpState :=
  { memory := fun _ => 0
    registers := fun _ => 0
    pc := 0x3000
    condition := Condition.P
    running := true
    debug_continue := false
    break_address := none }

/-- Raw indexing of the intermediate-generation word array, as
state.memory address as usize does: fails out of bounds. -/
def memGet (mem : Fin 65535 → Nat) (a : Nat) : Option Nat :=
  if h : a < 65535 then some (mem ⟨a, h⟩) else none

/-- Raw store into the intermediate-generation word array: fails out of
bounds. -/
def memSet (mem : Fin 65535 → Nat) (a : Nat) (v : Nat) :
    Option (Fin 65535 → Nat) :=
  if h : a < 65535 then
    some (fun j => if j = (⟨a, h⟩ : Fin 65535) then v else mem j)
  else none

/-- Guarded memory read of the intermediate generation (state.rs,
State::read_memory).  A read of KBSR polls stdin and, when a byte is
ready, latches 1 <<< 15 into KBSR and the consumed byte into KBDR,
otherwise stores 0 into KBSR; afterwards the addressed word is returned,
except that an address of exactly std::u16::MAX (0xFFFF) yields 0 instead
of an out-of-bounds access.  The consumed byte exists exactly when the
readiness poll succeeded, so this function is total. -/
def OpState.read_memory (s : OpState) (stdin : List Nat) (address : Nat) :
    OpState × List Nat × Nat :=
  let step : OpState × List Nat :=
    if address = KBSR then
      match stdin with
      | c :: rest =>
        ({ s with memory := fun j =>
            if (j : Nat) = KBDR then c
            else if (j : Nat) = KBSR then 32768
            else s.memory j }, rest)
      | [] =>
        ({ s with memory := fun j =>
            if (j : Nat) = KBSR then 0 else s.memory j }, stdin)
    else (s, stdin)
  let s1 := step.1
  if h : address < 65535 then (s1, step.2, s1.memory ⟨address, h⟩)
  else (s1, step.2, 0)

/-- Condition-code update of the intermediate generation (state.rs,
State::update_flags), identical logic to the current generation. -/
def OpState.update_flags (s : OpState) (r : Fin 8) : OpState :=
  if s.registers r = 0 then { s with condition := Condition.Z }
  else if (s.registers r) >>> 15 = 1 then { s with condition := Condition.N }
  else { s with condition := Condition.P }

/-- Opcodes of the intermediate generation: the fieldless enum matched by
process.rs (as declared in lib.rs, enum Opcode; the payload-carrying
opcode.rs enum belongs to a later revision). -/
inductive Opcode where
  | BR
  | ADD
  | LD
  | ST
  | JSR
  | AND
  | LDR
  | STR
  | UNUSED
  | NOT
  | LDI
  | STI
  | JMP
  | RESERVED
  | LEA
  | TRAP

/-- Opcode selection from the top four bits of a word (lib.rs,
Opcode::from_instruction); a value above 15 is unreachable for 16-bit
words and fails. -/
def Opcode.from_instruction (instruction : Nat) : Option Opcode :=
  match instruction >>> 12 with
  | 0x00 => some .BR
  | 0x01 => some .ADD
  | 0x02 => some .LD
  | 0x03 => some .ST
  | 0x04 => some .JSR
  | 0x05 => some .AND
  | 0x06 => some .LDR
  | 0x07 => some .STR
  | 0x08 => some .UNUSED
  | 0x09 => some .NOT
  | 0x0a => some .LDI
  | 0x0b => some .STI
  | 0x0c => some .JMP
  | 0x0d => some .RESERVED
  | 0x0e => some .LEA
  | 0x0f => some .TRAP
  | _ => none

/-- Bound proof for a three-bit register field. -/
theorem and7_lt (n : Nat) : n &&& 7 < 8 :=
  Nat.lt_of_le_of_lt Nat.and_le_right (by omega)

/-- A three-bit register field as an index into the register file. -/
def reg3 (n : Nat) : Fin 8 := ⟨n &&& 7, and7_lt n⟩

/-- The PUTS trap loop of process.rs: like the cpu.rs loop but through the
guarded State::read_memory, which returns 0 at address 0xFFFF, so the loop
always stops within 65536 steps and the fuel is never exhausted when the
call starts with fuel 65536. -/
def putsLoopOp (s : OpState) (stdin : List Nat) (i : Nat) :
    Nat → Option (OpState × List Nat × List Nat)
  | 0 => none
  | fuel + 1 =>
    let r1 := s.read_memory stdin i
    if r1.2.2 ≠ 0 then
      let r2 := r1.1.read_memory r1.2.1 i
      (putsLoopOp r2.1 r2.2.1 (i + 1) fuel).map
        (fun r => (r.1, r.2.1, (r2.2.2 % 256) :: r.2.2))
    else some (r1.1, r1.2.1, [])

/-- One step of the intermediate-generation executor (process.rs,
process): fetch the word at the PC through read_memory, select the opcode,
increment the PC (wrapping), then apply the operand semantics re-extracted
from the raw word.  The extra argument is the pending stdin bytes; the
result carries the next state, the remaining stdin and the bytes printed.
In the TRAP arm an unrecognized vector falls through the if-let silently
and the state is returned unchanged apart from the PC increment. -/
def process (state : OpState) (stdin : List Nat) :
    Option (OpState × List Nat × List Nat) :=
  let fetch := state.read_memory stdin state.pc
  let state := fetch.1
  let stdin := fetch.2.1
  let instruction := fetch.2.2
  (Opcode.from_instruction instruction).bind fun opcode =>
  let s : OpState := { state with pc := (state.pc + 1) % 65536 }
  match opcode with
  | .BR =>
    let n := (instruction >>> 11) &&& 0x1
    let z := (instruction >>> 10) &&& 0x1
    let p := (instruction >>> 9) &&& 0x1
    if (n = 1 ∧ s.condition = Condition.N)
        ∨ (z = 1 ∧ s.condition = Condition.Z)
        ∨ (p = 1 ∧ s.condition = Condition.P) then
      let pcOffset := instruction &&& 0x1ff
      some ({ s with pc := (s.pc + signExtend pcOffset 9) % 65536 }, stdin, [])
    else some (s, stdin, [])
  | .ADD =>
    let r0 := reg3 (instruction >>> 9)
    let r1 := reg3 (instruction >>> 6)
    let immediateFlag := ((instruction >>> 5) &&& 0x1) = 0x1
    let s :=
      if immediateFlag then
        let immediateValue := signExtend (instruction &&& 0x1f) 5
        { s with registers := fun j =>
            if j = r0 then (s.registers r1 + immediateValue) % 65536
            else s.registers j }
      else
        let r2 := reg3 instruction
        { s with registers := fun j =>
            if j = r0 then (s.registers r1 + s.registers r2) % 65536
            else s.registers j }
    some (s.update_flags r0, stdin, [])
  | .LD =>
    let r0 := reg3 (instruction >>> 9)
    let pcOffset := instruction &&& 0x1ff
    let address := (s.pc + signExtend pcOffset 9) % 65536
    (memGet s.memory address).map fun v =>
      let s := { s with registers := fun j => if j = r0 then v else s.registers j }
      (s.update_flags r0, stdin, [])
  | .ST =>
    let r0 := reg3 (instruction >>> 9)
    let pcOffset := instruction &&& 0x1ff
    let address := (s.pc + signExtend pcOffset 9) % 65536
    (memSet s.memory address (s.registers r0)).map fun m =>
      ({ s with memory := m }, stdin, [])
  | .JSR =>
    let temp := s.pc
    let usePcOffset := (instruction >>> 11) &&& 1
    let pcOffset := instruction &&& 0x7ff
    let r0 := reg3 (instruction >>> 6)
    let s :=
      if usePcOffset = 1 then
        { s with pc := (s.pc + signExtend pcOffset 11) % 65536 }
      else { s with pc := s.registers r0 }
    some ({ s with registers := fun j => if (j : Nat) = 7 then temp else s.registers j },
      stdin, [])
  | .AND =>
    let immediateFlag := ((instruction >>> 5) &&& 1) = 1
    let immediateValue := signExtend (instruction &&& 0x1f) 5
    let r0 := reg3 (instruction >>> 9)
    let r1 := reg3 (instruction >>> 6)
    let r2 := reg3 instruction
    let s :=
      if immediateFlag then
        { s with registers := fun j =>
            if j = r0 then s.registers r1 &&& immediateValue else s.registers j }
      else
        { s with registers := fun j =>
            if j = r0 then s.registers r1 &&& s.registers r2 else s.registers j }
    some (s, stdin, [])
  | .LDR =>
    let r0 := reg3 (instruction >>> 9)
    let r1 := reg3 (instruction >>> 6)
    let offset := instruction &&& 0x3f
    let address := (s.registers r1 + signExtend offset 6) % 65536
    let r := s.read_memory stdin address
    let s := { r.1 with registers := fun j => if j = r0 then r.2.2 else r.1.registers j }
    some (s.update_flags r0, r.2.1, [])
  | .STR =>
    let sr := reg3 (instruction >>> 9)
    let baseR := reg3 (instruction >>> 6)
    let offset := instruction &&& 0x3f
    let address := (s.registers baseR + signExtend offset 6) % 65536
    let value := s.registers sr
    (memSet s.memory address value).map fun m =>
      ({ s with memory := m }, stdin, [])
  | .UNUSED => none
  | .NOT =>
    let r0 := reg3 (instruction >>> 9)
    let r1 := reg3 (instruction >>> 6)
    -- bitwise complement of a 16-bit word
    let s := { s with registers := fun j =>
        if j = r0 then 65535 - s.registers r1 else s.registers j }
    some (s.update_flags r0, stdin, [])
  | .LDI =>
    let dr := reg3 (instruction >>> 9)
    let pcOffset := signExtend (instruction &&& 0x1ff) 9
    let r1 := s.read_memory stdin ((s.pc + pcOffset) % 65536)
    let r2 := r1.1.read_memory r1.2.1 r1.2.2
    let s := { r2.1 with registers := fun j => if j = dr then r2.2.2 else r2.1.registers j }
    some (s.update_flags dr, r2.2.1, [])
  | .STI =>
    let r0 := reg3 (instruction >>> 9)
    let pcOffset := instruction &&& 0x1ff
    let address := (s.pc + signExtend pcOffset 9) % 65536
    let r := s.read_memory stdin address
    (memSet r.1.memory r.2.2 (r.1.registers r0)).map fun m =>
      ({ r.1 with memory := m }, r.2.1, [])
  | .JMP =>
    let r0 := reg3 (instruction >>> 6)
    some ({ s with pc := s.registers r0 }, stdin, [])
  | .RESERVED => none
  | .LEA =>
    let r0 := reg3 (instruction >>> 9)
    let pcOffset := instruction &&& 0x1ff
    let value := (s.pc + signExtend pcOffset 9) % 65536
    some ({ s with registers := fun j => if j = r0 then value else s.registers j },
      stdin, [])
  | .TRAP =>
    match TrapVector.from_instruction instruction with
    | some trapVector =>
      match trapVector with
      | .GETC =>
        match stdin with
        | [] => none
        | c :: rest =>
          some ({ s with registers := fun j => if (j : Nat) = 0 then c else s.registers j },
            rest, [])
      | .OUT => some (s, stdin, [s.registers 0 % 256])
      | .PUTS =>
        (putsLoopOp s stdin (s.registers 0) 65536).map fun r => (r.1, r.2.1, r.2.2)
      | .IN => none
      | .PUTSP => none
      | .HALT => some ({ s with running := false }, stdin, [])
    | none => some (s, stdin, [])

/-- Machine state of the oldest generation (lib.rs, struct State): a raw
word array of std::u16::MAX = 65535 elements, eight registers, the program
counter, the condition code and the running flag. -/
structure LibState where
  memory : Fin 65535 → Nat
  registers : Fin 8 → Nat
  pc : Nat
  condition : Condition
  running : Bool

/-- Fresh oldest-generation state (lib.rs, State::new). -/
def LibState.new : LibState :=
  { memory := fun _ => 0
    registers := fun _ => 0
    pc := 0x3000
    condition := Condition.P
    running := true }

/-- The PC increment and the Opcode::JSR arm of the oldest-generation
executor (lib.rs, process, the JSR arm): the incremented PC is saved, the
offset field is masked to NINE bits (0x1ff) and sign-extended as nine
bits before being added to the PC (or the PC is loaded from the base
register when bit 11 is clear), and R7 receives the saved PC. -/
def libProcessJSR (state : LibState) (instruction : Nat) : LibState :=
  let s : LibState := { state with pc := (state.pc + 1) % 65536 }
  let temp := s.pc
  let usePcOffset := (instruction >>> 11) &&& 1
  let pcOffset := instruction &&& 0x1ff
  let r := reg3 (instruction >>> 6)
  let s :=
    if usePcOffset = 1 then
      { s with pc := (s.pc + signExtend pcOffset 9) % 65536 }
    else { s with pc := s.registers r }
  { s with registers := fun j => if (j : Nat) = 7 then temp else s.registers j }

/-- Byte pairing of the newest image reader (file.rs, the helper called by
read_rom): each chunk of two bytes becomes the big-endian word
x1 ||| (x0 <<< 8); a trailing chunk of one byte would fail on the access
to its second element. -/
def chunksToWords : List Nat → Option (List Nat)
  | [] => some []
  | [_] => none
  | b0 :: b1 :: rest => (chunksToWords rest).map (fun ws => (b1 ||| (b0 <<< 8)) :: ws)

/-- Image decoding of the newest reader (file.rs, from_bytes): a byte
stream whose length is not a multiple of two is rejected as invalid data;
otherwise the bytes are paired into big-endian words. -/
def from_bytes (data : List Nat) : Option (List Nat) :=
  if data.length % 2 ≠ 0 then none
  else chunksToWords data

/-- The word-filling loop of the older loader (file_loader.rs, load_file):
each big-endian word read is stored at the next address; a failed word
read is inspected, and an unexpected end of file, which also happens in
the middle of a word when the byte stream has odd length, is treated as
the successful end of the image. -/
def loadLoop (state : State) (address : Nat) : List Nat → Option State
  | b0 :: b1 :: rest =>
    match state.memory.write address ((b0 <<< 8) ||| b1) with
    | none => none
    | some m => loadLoop { state with memory := m } (address + 1) rest
  | _ => some state

/-- The older image loader (file_loader.rs, load_file): the first
big-endian word is the load address and becomes the PC (a stream shorter
than one word is an error), and the remaining words fill memory
contiguously from there; a trailing odd byte is swallowed by the
unexpected-end-of-file case of the loop. -/
def load_file (bytes : List Nat) (state : State) : Option State :=
  match bytes with
  | b0 :: b1 :: rest =>
    let address := (b0 <<< 8) ||| b1
    loadLoop { state with pc := address } address rest
  | _ => none

/-- A current-generation machine state at PC 0x3000 with fresh memory and
registers (the shape the cpu.rs tests build with State::new). -/
def state3000 : State :=
  { memory := Memory.new
    registers := Registers.new
    pc := 0x3000
    condition := Condition.P
    running := true }

/-- state3000 with R1 and R2 holding the negative word 0xFFFF. -/
def stateNegOps : State :=
  { state3000 with registers := (Registers.new.write 1 65535).write 2 65535 }

/-- Intermediate-generation state whose word at 0x3000 is TRAP with the
unrecognized vector 0x00. -/
def opStateBadTrap : OpState :=
  { OpState.new with memory := fun j => if (j : Nat) = 0x3000 then 0xF000 else 0 }

/-- Register conversion of a masked three-bit field always succeeds: the
bad-register failure of Register::from is unreachable behind a mask of 7. -/
theorem fromNat_and7 (n : Nat) :
    Register.fromNat (n &&& 7) = some ⟨n &&& 7, and7_lt n⟩ :=
  dif_pos (and7_lt n)

/-- The u16 shift 0xFFFF <<< k keeps exactly the bits k..15: as a number
it is 65536 - 2 ^ k. -/
theorem shl_mask (k : Nat) (h2 : k ≤ 15) :
    (0xFFFF <<< k) % 65536 = 65536 - 2 ^ k := by
  rw [Nat.shiftLeft_eq]
  have h1 : 0 < 2 ^ k := Nat.two_pow_pos k
  have h3 : (2 : Nat) ^ k ≤ 32768 := by
    calc (2 : Nat) ^ k ≤ 2 ^ 15 := Nat.pow_le_pow_right (by omega) h2
    _ = 32768 := by norm_num
  omega

/-- C8: for a bit width k between 1 and 15 (the widths on which the Rust
u16 code is defined; the program uses 5, 6, 9 and 11) and a value with
fewer than k significant bits, the sign-extended value read as a 16-bit
two's-complement integer equals the original value read as a k-bit
two's-complement integer. -/
theorem sign_extend_is_twos_complement (k : Nat) (h1 : 1 ≤ k) (h2 : k ≤ 15) :
    ∀ v, v < 2 ^ k → toInt 16 (signExtend v k) = toInt k v := by
  intro v hv
  have hps : (2 : Nat) ^ k = 2 * 2 ^ (k - 1) := by
    conv_lhs => rw [show k = (k - 1) + 1 by omega]
    rw [pow_succ]
    ring
  have hq : 0 < 2 ^ (k - 1) := Nat.two_pow_pos _
  have hbit : (v >>> (k - 1)) &&& 1 = v / 2 ^ (k - 1) % 2 := by
    rw [Nat.shiftRight_eq_div_pow, Nat.and_one_is_mod]
  have hk3 : (2 : Nat) ^ k ≤ 32768 := by
    calc (2 : Nat) ^ k ≤ 2 ^ 15 := Nat.pow_le_pow_right (by omega) h2
    _ = 32768 := by norm_num
  have hk4 : (2 : Nat) ^ (k - 1) ≤ 16384 := by
    calc (2 : Nat) ^ (k - 1) ≤ 2 ^ 14 := Nat.pow_le_pow_right (by omega) (by omega)
    _ = 16384 := by norm_num
  have h215 : (2 : Nat) ^ (16 - 1) = 32768 := by norm_num
  by_cases hb : v / 2 ^ (k - 1) % 2 = 1
  · have hge : 2 ^ (k - 1) ≤ v := by
      by_contra hlt
      push_neg at hlt
      rw [Nat.div_eq_of_lt hlt] at hb
      simp at hb
    have hprod : (2 : Nat) ^ k * 2 ^ (16 - k) = 65536 := by
      rw [← pow_add, show k + (16 - k) = 16 by omega]
      norm_num
    have hsub : (2 : Nat) ^ k * (2 ^ (16 - k) - 1) = 65536 - 2 ^ k := by
      rw [Nat.mul_sub_one]
      omega
    have hse : signExtend v k = 65536 - 2 ^ k + v := by
      unfold signExtend
      rw [hbit, if_pos hb, shl_mask k h2, ← hsub, Nat.lor_comm]
      exact (Nat.mul_add_lt_is_or hv _).symm
    unfold toInt
    rw [hse, if_neg (by omega : ¬ (65536 - 2 ^ k + v < 2 ^ (16 - 1))),
      if_neg (by omega : ¬ (v < 2 ^ (k - 1)))]
    have hIk : ((2 : Nat) ^ k : Int) = (2 : Int) ^ k := by
      push_cast
      ring
    rw [show ((2 : Int) ^ 16) = 65536 by norm_num, ← hIk]
    omega
  · have hdivlt : v / 2 ^ (k - 1) < 2 := Nat.div_lt_of_lt_mul (by omega)
    have hd0 : v / 2 ^ (k - 1) = 0 := by
      revert hb hdivlt
      generalize v / 2 ^ (k - 1) = d
      intro hb hdivlt
      omega
    have hlt : v < 2 ^ (k - 1) := (Nat.div_eq_zero_iff hq).1 hd0
    have hse : signExtend v k = v := by
      unfold signExtend
      rw [hbit, if_neg hb]
    unfold toInt
    rw [hse, if_pos (by omega : v < 2 ^ (16 - 1)), if_pos hlt]

/-- C8 witness: the theorem applied at width 5 and value 21 (0b10101),
whose 5-bit two's-complement reading is -11. -/
theorem sign_extend_is_twos_complement_witness :
    1 ≤ 5 ∧ 5 ≤ 15 ∧ 21 < 2 ^ 5 ∧ toInt 16 (signExtend 21 5) = toInt 5 21 :=
  ⟨by decide, by decide, by decide,
    sign_extend_is_twos_complement 5 (by decide) (by decide) 21 (by decide)⟩

/-- C10: a BR instruction whose n, z and p bits are all clear never
branches: for every state, every offset and every pending input, execute
returns the state with the PC incremented (wrapping) and nothing else
changed, no input consumed and nothing printed, whatever the current
condition code is. -/
theorem br_all_clear_is_noop (s : State) (pcOffset : Nat) (stdin : List Nat) :
    execute s (Instruction.BR { p := false, z := false, n := false } pcOffset) stdin =
      some ({ s with pc := (s.pc + 1) % 65536 }, stdin, []) := by
  simp [execute]

/-- C1, evaluation at the failing inputs: the cpu.rs AND, AND-immediate
and LEA arms do not call update_flags, so the condition code is left
unchanged instead of being set from the written value.  AND writes the
negative word 0xFFFF yet the condition stays P; AND-immediate writes the
negative word 0xFFF0 yet the condition stays P; LEA writes the positive
address 0x3003 yet the condition stays N. -/
theorem and_andimm_lea_leave_condition_unchanged :
    ((execute stateNegOps (Instruction.AND 3 1 2) []).map
        (fun r => (r.1.registers.read 3, r.1.condition)) = some (65535, Condition.P))
  ∧ ((execute stateNegOps (Instruction.ANDIMM 0xFFF0 3 1) []).map
        (fun r => (r.1.registers.read 3, r.1.condition)) = some (0xFFF0, Condition.P))
  ∧ ((execute { state3000 with condition := Condition.N } (Instruction.LEA 3 2) []).map
        (fun r => (r.1.registers.read 3, r.1.condition)) = some (0x3003, Condition.N)) := by
  refine ⟨rfl, rfl, rfl⟩

/-- C2, evaluation at the failing address: the backing array has only
65535 elements, so Memory::write at 0xFFFF fails (out-of-bounds store),
Memory::read at 0xFFFF fails (out-of-bounds load), and the guarded
State::read_memory of the intermediate generation returns 0 at 0xFFFF
instead of a stored word. -/
theorem memory_access_at_ffff_fails :
    Memory.write Memory.new 0xFFFF 1 = none
  ∧ Memory.read Memory.new [] 0xFFFF = none
  ∧ (OpState.read_memory OpState.new [] 0xFFFF).2.2 = 0 := by
  refine ⟨rfl, rfl, rfl⟩

/-- C5, evaluation at the failing input: the lib.rs JSR arm masks the
offset field of word 0x4C03 to nine bits (giving 3) and sign-extends it as
nine bits, so from PC 0x3000 it jumps to 0x3004; the claimed (and
cpu.rs-implemented) 11-bit treatment of the same offset field (1027)
reaches 0x3001 + 0xFC03 = 0x2C04 instead.  Both versions save the
incremented PC 0x3001 in R7. -/
theorem jsr_offset_nine_bit_bug :
    ((libProcessJSR LibState.new 0x4C03).pc = 0x3004
      ∧ (libProcessJSR LibState.new 0x4C03).registers 7 = 0x3001)
  ∧ ((execute state3000 (Instruction.JSR 1027) []).map
      (fun r => (r.1.pc, r.1.registers.read 7)) = some (0x2C04, 0x3001)) := by
  refine ⟨⟨rfl, rfl⟩, rfl⟩

/-- C6, evaluation at the failing input: a TRAP word with the unrecognized
vector 0x00 at PC 0x3000.  The process.rs TRAP arm drops the error of
TrapVector::from_instruction, so the step succeeds: the PC advances to
0x3001, the machine keeps running, the condition is untouched, no input is
consumed and nothing is printed — execution continues silently instead of
terminating with the prepared diagnostic. -/
theorem unknown_trap_continues_silently :
    (process opStateBadTrap []).map
        (fun r => (r.1.pc, r.1.running, r.1.condition, r.1.registers 0, r.2.1, r.2.2))
      = some (0x3001, true, Condition.P, 0, [], []) := by
  rfl

/-- C7, evaluation at the failing input, the odd byte stream
0x30 0x00 0xF0: the newest reader from_bytes rejects it as invalid data,
but the older loader load_file succeeds, setting the PC to the load
address 0x3000 and silently dropping the trailing byte 0xF0. -/
theorem odd_image_loaders_disagree :
    from_bytes [0x30, 0x00, 0xF0] = none
  ∧ ((load_file [0x30, 0x00, 0xF0] state3000).map (fun s => s.pc) = some 0x3000) := by
  refine ⟨rfl, rfl⟩

/-- Observable effect of one machine memory write: the resulting memory
(none when the store fails), the bytes printed while writing, and whether
the write halted the machine (cleared the running flag). -/
structure WriteEffect where
  memory : Option Memory
  printed : List Nat
  haltsMachine : Bool

/-- What actually happens in this codebase when the machine writes a word
to memory: Memory::write in state/memory.rs is a plain store into the
backing array, and the cpu.rs store arms (ST, STR, STI) update only the
memory field of the state — nothing is printed and the running flag is
never touched by a write. -/
def machineWrite (m : Memory) (address word : Nat) : WriteEffect :=
  { memory := m.write address word
    printed := []
    haltsMachine := false }

/-- Written from the words of the spec, as the refinement counterpart to
be compared with machineWrite: a normal store, except that writing DDR
prints the low byte of the word and writing MCR with bit 15 clear halts
the machine. -/
def specWriteC3 (m : Memory) (address word : Nat) : WriteEffect :=
  { memory := m.write address word
    printed := if address = DDR then [word % 256] else []
    haltsMachine := if address = MCR ∧ (word >>> 15) &&& 1 = 0 then true else false }

/-- Formalization of claim C3: for every memory, address and word the
machine write behaves as the spec describes (store, plus the DDR print and
the MCR halt side effects). -/
def ClaimC3 : Prop := ∀ (m : Memory) (address word : Nat),
  machineWrite m address word = specWriteC3 m address word

/-- C3 counterexample: writing the word 0 (bit 15 clear) to MCR (0xFFFE)
does not halt the machine — the write is a plain store, so the claimed MCR
side effect is absent (and likewise nothing is printed on a DDR write). -/
theorem write_mcr_does_not_halt : ¬ ClaimC3 := by
  intro h
  have h2 := congrArg WriteEffect.haltsMachine (h Memory.new MCR 0)
  simp [machineWrite, specWriteC3, MCR] at h2

/-- C3 amended: for every in-bounds address (below 0xFFFF) and word, the
machine memory write is a plain store with no side effects: nothing is
printed and the running flag is untouched, also at DDR and MCR; at address
0xFFFF the store fails out of bounds. -/
theorem write_is_plain_store (m : Memory) (address word : Nat) (h : address < 65535) :
    machineWrite m address word =
      { memory := some (m.store ⟨address, h⟩ word)
        printed := []
        haltsMachine := false } := by
  simp [machineWrite, Memory.write, h]

/-- C3 witness: the amended theorem applied at the DDR address with byte
0x41 pending in the word. -/
theorem write_is_plain_store_witness :
    (0xFE06 : Nat) < 65535 ∧ machineWrite Memory.new 0xFE06 0x41 =
      { memory := some (Memory.new.store ⟨0xFE06, by decide⟩ 0x41)
        printed := []
        haltsMachine := false } :=
  ⟨by decide, write_is_plain_store Memory.new 0xFE06 0x41 (by decide)⟩

/-- Formalization of claim C4: a read of DSR succeeds and returns 0x8000
through Memory::read (the execution path), and returns 0x8000 through
State::read_memory (the path of the debugger read command). -/
def ClaimC4 : Prop :=
  (∀ (m : Memory) (stdin : List Nat),
    ∃ m2 rest, Memory.read m stdin DSR = some (m2, rest, 32768))
  ∧ (∀ (s : OpState) (stdin : List Nat),
    (OpState.read_memory s stdin DSR).2.2 = 32768)

/-- C4 counterexample: Memory::read at DSR is the unimplemented arm, so it
fails instead of returning a value. -/
theorem dsr_read_is_not_defined : ¬ ClaimC4 := by
  intro h
  obtain ⟨m2, rest, hm⟩ := h.1 Memory.new []
  simp [Memory.read, DSR, KBSR, KBDR] at hm

/-- C4 amended: a read of DSR through Memory::read always fails (the arm
is unimplemented), and a read of DSR through State::read_memory (the
debugger path) has no DSR case at all: it returns whatever word is stored
at 0xFE04 — 0 in a fresh state — with no state change. -/
theorem dsr_read_behavior :
    (∀ (m : Memory) (stdin : List Nat), Memory.read m stdin DSR = none)
  ∧ (∀ (s : OpState) (stdin : List Nat),
      OpState.read_memory s stdin DSR = (s, stdin, s.memory ⟨DSR, by decide⟩))
  ∧ (OpState.read_memory OpState.new [] DSR).2.2 = 0 := by
  refine ⟨fun m stdin => ?_, fun s stdin => ?_, rfl⟩
  · simp [Memory.read, DSR, KBSR, KBDR]
  · simp [OpState.read_memory, DSR, KBSR]

/-- Formalization of claim C9: decoding never fails on any 16-bit word. -/
def ClaimC9 : Prop := ∀ w, w < 65536 → (Instruction.decode w).isSome

/-- C9 counterexample: the TRAP word 0xF000 carries the unrecognized
vector 0x00, and decoding it fails (the fatal unrecognized-trap path). -/
theorem decode_fails_on_unknown_trap : ¬ ClaimC9 := by
  intro h
  exact absurd (h 0xF000 (by omega)) (by decide)

/-- C9 amended: for every 16-bit word, decoding succeeds if and only if
the word is not a TRAP word with a vector outside 0x20..0x25.  In
particular the bad-register failure of Register::from is unreachable:
every register operand field is masked to three bits before conversion,
and decoded register operands are indices below 8 by construction. -/
theorem decode_total_except_unknown_trap (w : Nat) (h : w < 65536) :
    (Instruction.decode w).isSome = true ↔
      (w >>> 12 ≠ 0xF ∨ (0x20 ≤ w &&& 0xFF ∧ w &&& 0xFF ≤ 0x25)) := by
  have h16 : w >>> 12 < 16 := by
    rw [Nat.shiftRight_eq_div_pow]
    omega
  rw [Instruction.decode.eq_def]
  split <;>
    simp_all [fromNat_and7, TrapVector.decode, TrapVector.from_instruction,
      apply_ite Option.isSome] <;>
    omega

/-- C9 witness: the amended theorem applied at the word 0x1234 (an LD
instruction), which decodes successfully. -/
theorem decode_total_except_unknown_trap_witness :
    (0x1234 < 65536) ∧ ((Instruction.decode 0x1234).isSome = true ↔
      ((0x1234 : Nat) >>> 12 ≠ 0xF
        ∨ (0x20 ≤ (0x1234 : Nat) &&& 0xFF ∧ (0x1234 : Nat) &&& 0xFF ≤ 0x25))) :=
  ⟨by decide, decode_total_except_unknown_trap 0x1234 (by decide)⟩
